import Mathlib

/-!
Verification development for the voice-coding-assistant repository.

The definitions below are a shallow embedding, translated from the Python
sources `tools.py` and `assistant_core.py`:

* pure string helpers model the Python string operations used by the code
  (`in`, `.lower()`, `.strip()`, `.startswith`, `.split`, `.endswith`);
* the filesystem is modelled explicitly as a record of directories and
  files keyed by component lists, with OS calls (`os.path.exists`,
  `Path.mkdir`, `open(...,"w")`, `open(...,"r")`, `os.listdir`,
  `Path.iterdir`) modelled as operations on that record;
* the OpenAI client is modelled as an oracle: a list of responses, each
  either a successful content string or a raised transport error;
* Python lists passed by reference (the conversation history) are modelled
  with an explicit heap of lists and natural-number references, so that
  aliasing and in-place mutation are observable;
* `json.loads` / `json.dumps` are modelled by an executable JSON parser and
  printer covering the JSON fragment the program exchanges (objects,
  arrays, strings with the common escapes, integer numerals, booleans,
  null).

Lowercasing is modelled on ASCII (`Char.toLower`); the Python code only
compares ASCII command words and keywords.
-/

namespace VCA

/-- Python `sub in s` (substring containment). -/
def strContains (s pat : String) : Bool :=
  decide (pat.toList <:+: s.toList)

/-- Python `\s` and the default `str.strip` character set (ASCII). -/
def pyWs (c : Char) : Bool :=
  c = ' ' || c = '\t' || c = '\n' || c = '\r' || c = '\x0c' || c = '\x0b'

/-- Python `s.lower()` (ASCII folding). -/
def pyLower (s : String) : String :=
  String.mk (s.toList.map Char.toLower)

/-- Python `s.strip()`. -/
def pyStrip (s : String) : String :=
  String.mk (((s.toList.dropWhile pyWs).reverse.dropWhile pyWs).reverse)

/-- Python `s.startswith(pre)`. -/
def pyStartsWith (s pre : String) : Bool :=
  pre.toList.isPrefixOf s.toList

/-- Python `s.endswith(suf)`. -/
def pyEndsWith (s suf : String) : Bool :=
  suf.toList.isSuffixOf s.toList

/-- Python `s.lower().strip()` as used by `run_command`. -/
def lowerStrip (s : String) : String :=
  pyStrip (pyLower s)

/-! ## `run_command` (tools.py lines 11-104): the command safety filter. -/

/-- `SAFE_COMMANDS` allowlist from `run_command` (tools.py lines 15-38). -/
def SAFE_COMMANDS : List String :=
  [ "git",
    "npm list", "npm --version", "npm info", "npm outdated", "npm audit", "npm run",
    "pip list", "pip show", "pip --version", "pip check",
    "yarn --version", "yarn list", "yarn info", "yarn run",
    "node --version", "python --version", "python -V", "java -version",
    "ls", "dir", "pwd", "cd",
    "cat", "type", "head", "tail", "wc", "find", "grep",
    "code", "jupyter --version",
    "whoami", "date", "echo", "which", "where" ]

/-- `DANGEROUS_COMMANDS` denylist from `run_command` (tools.py lines 41-72). -/
def DANGEROUS_COMMANDS : List String :=
  [ "sudo", "su", "chmod 777", "chown",
    "rm -rf", "rmdir", "del /f", "del /s", "format", "fdisk",
    "mv /", "cp -r /", "xcopy",
    "wget", "curl -X POST", "curl -X PUT", "curl -X DELETE",
    "nc", "netcat", "ssh", "scp", "rsync",
    "kill -9", "killall", "pkill", "taskkill /f",
    "shutdown", "reboot", "halt", "poweroff",
    "mount", "umount", "fsck",
    "reg delete", "reg add", "regedit",
    "apt install", "apt remove", "yum install", "brew install",
    "pip install", "npm install -g", "yarn global add",
    "eval", "exec", "source", "bash -c", "sh -c", "cmd /c",
    "mysql", "psql", "mongo", "redis-cli" ]

/-- `dangerous_patterns` (tools.py line 78): shell metacharacter denylist. -/
def dangerous_patterns : List String :=
  ["&&", "||", ";", "|", ">", ">>", "<", "\x60", "$", "$("]

/--
`run_command` (tools.py lines 11-104).  `sys` models `os.system`: it maps
the command string to an exit code.  Python's `os.system` call does not
raise for the commands reachable here, so the `except` branch of the
source is not reachable in the model.
-/
def run_command (sys : String → Int) (cmd : String) : String :=
  -- the local `cmd_lower = cmd.lower().strip()` of the source is inlined
  match dangerous_patterns.find? (fun pattern => strContains cmd pattern) with
  | some _ =>
      "❌ Command blocked for security: \x27" ++ cmd ++
        "\x27. Command chaining/injection not allowed."
  | none =>
    match DANGEROUS_COMMANDS.find? (fun dangerous => strContains (lowerStrip cmd) dangerous) with
    | some dangerous =>
        "❌ Command blocked for security: \x27" ++ cmd ++
          "\x27. Dangerous operation detected: \x27" ++ dangerous ++ "\x27"
    | none =>
      if SAFE_COMMANDS.any (fun safe_cmd => pyStartsWith (lowerStrip cmd) (pyLower safe_cmd)) then
        "✅ Command executed safely: \x27" ++ cmd ++
          "\x27 (exit code: " ++ toString (sys cmd) ++ ")"
      else
        "❌ Command blocked for security: \x27" ++ cmd ++
          "\x27. Only safe development commands are allowed.\n" ++
          "✅ Allowed commands include: git, npm/yarn (read-only), version checks, directory listing, etc."

/-- A result of `run_command` is a blocked verdict: every rejection branch
carries this marker and the acceptance branch does not. -/
def isBlocked (msg : String) : Bool :=
  strContains msg "Command blocked for security"

/-- A result of `run_command` is an executed (allowed) verdict. -/
def isExecuted (msg : String) : Bool :=
  strContains msg "Command executed safely"

/-! ## A small regular-expression engine

`extract_custom_location` and `detect_project_type` (tools.py lines
125-200) use `re.search` / `re.sub` on five fixed patterns.  The engine
below implements exactly the constructs those patterns use, with Python
semantics: leftmost match, ordered alternation, lazy (`*?`, `+?`) versus
greedy (`+`, `?`) repetition, `.` not matching a newline, `$` as
end-of-input, and one capturing group. -/

/-- Regular-expression syntax for the patterns appearing in tools.py. -/
inductive RE where
  | eps : RE
  | cls (p : Char → Bool) : RE
  | cat (a b : RE) : RE
  | alt (a b : RE) : RE
  | starL (a : RE) : RE
  | plusG (a : RE) : RE
  | plusL (a : RE) : RE
  | opt (a : RE) : RE
  | grp (a : RE) : RE
  | eos : RE

/-- `.` without `re.DOTALL`: any character except a newline. -/
def notNl (c : Char) : Bool := c != '\n'

/-- Backtracking matcher in continuation-passing style.  `i` is the current
position in `s`, `g` the span captured so far by the (single) group, `k`
the continuation.  `fuel` bounds the recursion depth; it is chosen large
enough at the call site in `reSearch` for the fixed patterns used here. -/
def mtch (fuel : Nat) (re : RE) (s : List Char) (i : Nat) (g : Option (Nat × Nat))
    (k : Nat → Option (Nat × Nat) → Option (Nat × Nat)) : Option (Nat × Nat) :=
  match fuel with
  | 0 => none
  | fuel + 1 =>
    match re with
    | .eps => k i g
    | .cls p =>
        match s[i]? with
        | some c => if p c then k (i + 1) g else none
        | none => none
    | .cat a b => mtch fuel a s i g (fun j g1 => mtch fuel b s j g1 k)
    | .alt a b =>
        match mtch fuel a s i g k with
        | some r => some r
        | none => mtch fuel b s i g k
    | .starL a =>
        match k i g with
        | some r => some r
        | none => mtch fuel a s i g (fun j g1 =>
            if j = i then none else mtch fuel (.starL a) s j g1 k)
    | .plusG a => mtch fuel a s i g (fun j g1 =>
        match (if j = i then none else mtch fuel (.plusG a) s j g1 k) with
        | some r => some r
        | none => k j g1)
    | .plusL a => mtch fuel a s i g (fun j g1 =>
        match k j g1 with
        | some r => some r
        | none => if j = i then none else mtch fuel (.plusL a) s j g1 k)
    | .opt a =>
        match mtch fuel a s i g k with
        | some r => some r
        | none => k i g
    | .grp a => mtch fuel a s i g (fun j _ => k j (some (i, j)))
    | .eos => if i = s.length then k i g else none

/-- Structural size of a pattern, used to pick an adequate fuel. -/
def sizeRE : RE → Nat
  | .eps => 1
  | .cls _ => 1
  | .cat a b => sizeRE a + sizeRE b + 1
  | .alt a b => sizeRE a + sizeRE b + 1
  | .starL a => sizeRE a + 1
  | .plusG a => sizeRE a + 1
  | .plusL a => sizeRE a + 1
  | .opt a => sizeRE a + 1
  | .grp a => sizeRE a + 1
  | .eos => 1

/-- Python `re.search(pattern, s)` followed by `match.group(1)`: leftmost
match wins; returns the text captured by the group. -/
def reSearch (re : RE) (s : String) : Option String :=
  let cs := s.toList
  let fuel := (cs.length + 2) * (sizeRE re + 2) * 2
  ((List.range (cs.length + 1)).findSome? (fun i =>
      mtch fuel re cs i none (fun _ g => some (g.getD (0, 0))))).map
    (fun sp => String.mk ((cs.drop sp.1).take (sp.2 - sp.1)))

/-- Literal string pattern. -/
def reLit (t : String) : RE :=
  t.toList.foldr (fun c r => .cat (.cls (fun x => x = c)) r) .eps

/-- Literal string pattern under `re.IGNORECASE` (ASCII folding). -/
def reLitCI (t : String) : RE :=
  t.toList.foldr (fun c r => .cat (.cls (fun x => x.toLower = c.toLower)) r) .eps

/-- `["\']?` -/
def quoteOpt : RE := .opt (.cls (fun c => c = '"' || c = '\x27'))

/-- `["\']?([^"\'\n\r]+?)["\']?(?:\s|$)` — the common tail of the five
location patterns (tools.py lines 134-138). -/
def locTail : RE :=
  .cat quoteOpt (.cat
    (.grp (.plusL (.cls (fun c => !(c = '"' || c = '\x27' || c = '\n' || c = '\r')))))
    (.cat quoteOpt (.alt (.cls pyWs) .eos)))

/-- `(?:create|put|save|place).*?(?:in|at|under)\s+` followed by `locTail`
(tools.py line 134). -/
def locPattern1 : RE :=
  .cat (.alt (reLit "create") (.alt (reLit "put") (.alt (reLit "save") (reLit "place"))))
    (.cat (.starL (.cls notNl))
      (.cat (.alt (reLit "in") (.alt (reLit "at") (reLit "under")))
        (.cat (.plusG (.cls pyWs)) locTail)))

/-- `word[:\s]+` followed by `locTail` (tools.py lines 135-138). -/
def locPatternKw (w : String) : RE :=
  .cat (reLit w) (.cat (.plusG (.cls (fun c => c = ':' || pyWs c))) locTail)

/-- `location_patterns` (tools.py lines 133-139). -/
def location_patterns : List RE :=
  [ locPattern1, locPatternKw "location", locPatternKw "folder",
    locPatternKw "directory", locPatternKw "path" ]

/-- Python `s.strip('/')`. -/
def stripSlashes (s : String) : String :=
  String.mk (((s.toList.dropWhile (fun c => c = '/')).reverse.dropWhile
    (fun c => c = '/')).reverse)

/-- Python `s.replace('\\', '/')` (single-character replacement). -/
def backToFwd (s : String) : String :=
  String.mk (s.toList.map (fun c => if c = '\\' then '/' else c))

/-- `extract_custom_location` (tools.py lines 125-151). -/
def extract_custom_location (user_query : String) : Option String :=
  if user_query = "" then none
  else
    let query_lower := pyLower user_query
    location_patterns.findSome? (fun pattern =>
      match reSearch pattern query_lower with
      | none => none
      | some raw =>
          let location := stripSlashes (backToFwd (pyStrip raw))
          if location ≠ "" ∧ location ∉ ["current", "here", "this"] then
            some location
          else none)

/-! ## `detect_project_type` (tools.py lines 154-200). -/

/-- Python `\w` (ASCII model): letters, digits, underscore. -/
def isWordChar (c : Char) : Bool := c.isAlphanum || c = '_'

/-- `re.sub(r'[-\s]+', '_', s)`: collapse each run of hyphens/whitespace
into a single underscore. -/
def collapseRuns : List Char → List Char
  | [] => []
  | c :: cs =>
      if pyWs c || c = '-' then
        '_' :: collapseRuns (cs.dropWhile (fun x => pyWs x || x = '-'))
      else c :: collapseRuns cs
termination_by l => l.length
decreasing_by
  · exact Nat.lt_succ_of_le ((List.dropWhile_suffix _).sublist.length_le)
  · simp

/-- The title-cleaning steps of tools.py lines 189-190, applied to the
already-stripped title. -/
def cleanTitle (title : String) : String :=
  let t1 := String.mk (title.toList.filter (fun c => isWordChar c || pyWs c || c = '-'))
  pyLower (String.mk (collapseRuns (pyStrip t1).toList))

/-- `re.search(r'<title>(.*?)</title>', content, re.IGNORECASE)`. -/
def titleRE : RE :=
  .cat (reLitCI "<title>") (.cat (.grp (.starL (.cls notNl))) (reLitCI "</title>"))

/-- `project_patterns` (tools.py lines 158-169), in insertion order. -/
def project_patterns : List (String × List String) :=
  [ ("todo", ["todo", "task", "checklist"]),
    ("calculator", ["calc", "calculator", "math"]),
    ("weather", ["weather", "forecast", "climate"]),
    ("blog", ["blog", "post", "article"]),
    ("portfolio", ["portfolio", "resume", "cv"]),
    ("ecommerce", ["shop", "store", "cart", "ecommerce"]),
    ("dashboard", ["dashboard", "admin", "panel"]),
    ("chat", ["chat", "message", "messenger"]),
    ("game", ["game", "puzzle", "play"]),
    ("landing", ["landing", "home", "index"]) ]

/-- `detect_project_type` (tools.py lines 154-200). -/
def detect_project_type (file_path content : String) : Option String :=
  let filename_lower := pyLower file_path
  match project_patterns.findSome? (fun pk =>
      if pk.2.any (fun keyword => strContains filename_lower keyword) then
        some (pk.1 ++ "_app")
      else none) with
  | some r => some r
  | none =>
    let content_lower := pyLower content
    match project_patterns.findSome? (fun pk =>
        if pk.2.any (fun keyword => strContains content_lower keyword) then
          some (pk.1 ++ "_app")
        else none) with
    | some r => some r
    | none =>
      let fromTitle : Option String :=
        if pyEndsWith file_path ".html" then
          match reSearch titleRE content with
          | some title =>
              let clean_title := cleanTitle (pyStrip title)
              if clean_title ≠ "" ∧ clean_title.length > 2 then some clean_title
              else none
          | none => none
        else none
      match fromTitle with
      | some r => some r
      | none =>
        if pyEndsWith file_path ".html" || pyEndsWith file_path ".css"
            || pyEndsWith file_path ".js" then some "web_app"
        else if pyEndsWith file_path ".py" then some "python_project"
        else none

/-- `detect_project_name_and_location` (tools.py lines 107-122). -/
def detect_project_name_and_location (file_path content : String)
    (user_query : String := "") : Option String × Option String :=
  if strContains file_path "/" || strContains file_path "\\" then (none, none)
  else
    match extract_custom_location user_query with
    | some custom_location =>
        (detect_project_type file_path content, some custom_location)
    | none =>
        let project_name := detect_project_type file_path content
        (project_name, if project_name.isSome then some "ai_projects" else none)

/-! ## Filesystem model

The working directory is the root; paths are lists of components.  `dirs`
holds every directory created so far, `files` maps paths to contents. -/

structure FS where
  dirs : List (List String)
  files : List (List String × String)
deriving DecidableEq, Repr

def emptyFS : FS := ⟨[], []⟩

/-- Split a character list at every occurrence of `sep`. -/
def splitCharsOn (sep : Char) : List Char → List Char → List (List Char)
  | [], acc => [acc.reverse]
  | c :: cs, acc =>
      if c = sep then acc.reverse :: splitCharsOn sep cs []
      else splitCharsOn sep cs (c :: acc)

/-- Split a path string at `/` (POSIX; backslash is an ordinary character). -/
def splitPath (s : String) : List String :=
  (splitCharsOn '/' s.toList []).map String.mk

/-- Python `s.split('\n')`. -/
def pySplitNl (s : String) : List String :=
  (splitCharsOn '\n' s.toList []).map String.mk

def joinPath (p : List String) : String :=
  String.intercalate "/" p

def isDir (fs : FS) (p : List String) : Bool :=
  p.isEmpty || fs.dirs.contains p

def lookupFile (fs : FS) (p : List String) : Option String :=
  (fs.files.find? (fun e => e.1 = p)).map (fun e => e.2)

def isFile (fs : FS) (p : List String) : Bool :=
  (lookupFile fs p).isSome

/-- `os.path.exists` / `Path.exists`. -/
def pathExists (fs : FS) (p : List String) : Bool :=
  isDir fs p || isFile fs p

def setFile (fs : FS) (p : List String) (c : String) : FS :=
  { fs with files := fs.files.filter (fun e => e.1 ≠ p) ++ [(p, c)] }

def errNoFile (p : List String) : String :=
  "[Errno 2] No such file or directory: \x27" ++ joinPath p ++ "\x27"

def errIsDir (p : List String) : String :=
  "[Errno 21] Is a directory: \x27" ++ joinPath p ++ "\x27"

def errFileExists (p : List String) : String :=
  "[Errno 17] File exists: \x27" ++ joinPath p ++ "\x27"

/-- `open(p, "w")`: truncating create/overwrite; the parent must be an
existing directory and `p` itself must not be a directory. -/
def openWrite (fs : FS) (p : List String) (c : String) : Except String FS :=
  if isDir fs p then .error (errIsDir p)
  else if isDir fs p.dropLast then .ok (setFile fs p c)
  else .error (errNoFile p)

/-- `open(p, "r")` followed by `.read()`. -/
def openRead (fs : FS) (p : List String) : Except String String :=
  if isDir fs p then .error (errIsDir p)
  else
    match lookupFile fs p with
    | some c => .ok c
    | none => .error (errNoFile p)

/-- `Path(p).mkdir(parents=True, exist_ok=True)`. -/
def mkdirParents (fs : FS) (p : List String) : Except String FS :=
  let prefixes := (List.range p.length).map (fun i => p.take (i + 1))
  if prefixes.any (fun q => isFile fs q) then .error (errFileExists p)
  else .ok { fs with dirs := fs.dirs ++ prefixes.filter (fun q => !fs.dirs.contains q) }

/-- `Path(p).mkdir(exist_ok=True)` (no `parents`). -/
def mkdirOne (fs : FS) (p : List String) : Except String FS :=
  if isFile fs p then .error (errFileExists p)
  else if isDir fs p then .ok fs
  else if isDir fs p.dropLast then .ok { fs with dirs := fs.dirs ++ [p] }
  else .error (errNoFile p)

/-- `os.listdir('.')`: names of the top-level entries. -/
def listdirRoot (fs : FS) : List String :=
  (fs.dirs.filterMap (fun d => if d.length = 1 then d.head? else none)) ++
    (fs.files.filterMap (fun e => if e.1.length = 1 then e.1.head? else none))

/-- The child directories of `base` (`Path.iterdir` filtered by `is_dir`). -/
def dirChildren (fs : FS) (base : List String) : List (List String) :=
  fs.dirs.filter (fun d => d.length = base.length + 1 && base.isPrefixOf d)

/-! ## The file tools (tools.py lines 203-319). -/

/--
The resolution search shared verbatim by `read_file` (tools.py lines
237-254) and `write_file` (tools.py lines 266-283): if the literal path
does not exist, look one level inside `ai_projects`, then one level inside
every other top-level directory (the legacy loop runs on the possibly
already-updated path, exactly as in the source).
-/
def resolveSearch (fs : FS) (fp : List String) : Except String (List String) :=
  if pathExists fs fp then .ok fp
  else
    let step1 : Except String (List String) :=
      if pathExists fs ["ai_projects"] then
        if isDir fs ["ai_projects"] then
          .ok (match (dirChildren fs ["ai_projects"]).find?
                  (fun d => pathExists fs (d ++ fp)) with
               | some d => d ++ fp
               | none => fp)
        else .error "[Errno 20] Not a directory: \x27ai_projects\x27"
      else .ok fp
    match step1 with
    | .error e => .error e
    | .ok fp1 =>
        let roots := (listdirRoot fs).filter
          (fun item => isDir fs [item] && item ≠ "ai_projects")
        .ok (match roots.find? (fun item => pathExists fs ([item] ++ fp1)) with
             | some item => [item] ++ fp1
             | none => fp1)

/-- `create_file` (tools.py lines 203-231).  The `print` side effects of
the source are ignored; partial effects (directories created before a
failing `open`) persist, as they do under the source's `try`/`except`. -/
def create_file (fs : FS) (file_path content : String)
    (user_query : String := "") : String × FS :=
  match detect_project_name_and_location file_path content user_query with
  | (some project_name, some base_location) =>
      (match mkdirParents fs (splitPath base_location) with
       | .error e => ("Error creating file: " ++ e, fs)
       | .ok fs1 =>
         match mkdirOne fs1 (splitPath base_location ++ [project_name]) with
         | .error e => ("Error creating file: " ++ e, fs1)
         | .ok fs2 =>
           let fp := splitPath base_location ++ [project_name] ++ splitPath file_path
           match openWrite fs2 fp content with
           | .error e => ("Error creating file: " ++ e, fs2)
           | .ok fs3 =>
               ("File \x27" ++ joinPath fp ++ "\x27 created successfully.", fs3))
  | _ =>
      match openWrite fs (splitPath file_path) content with
      | .error e => ("Error creating file: " ++ e, fs)
      | .ok fs1 =>
          ("File \x27" ++ file_path ++ "\x27 created successfully.", fs1)

/-- `read_file` (tools.py lines 234-260). -/
def read_file (fs : FS) (file_path : String) : String :=
  match resolveSearch fs (splitPath file_path) with
  | .error e => "Error reading file: " ++ e
  | .ok fp =>
      match openRead fs fp with
      | .ok content => "File contents:\n" ++ content
      | .error e => "Error reading file: " ++ e

/-- `write_file` (tools.py lines 263-289). -/
def write_file (fs : FS) (file_path content : String) : String × FS :=
  match resolveSearch fs (splitPath file_path) with
  | .error e => ("Error writing to file: " ++ e, fs)
  | .ok fp =>
      match openWrite fs fp content with
      | .ok fs1 => ("File \x27" ++ joinPath fp ++ "\x27 updated successfully.", fs1)
      | .error e => ("Error writing to file: " ++ e, fs)

/-- `analyze_code` (tools.py lines 292-319): no resolution search. -/
def analyze_code (fs : FS) (file_path : String) : String :=
  match openRead fs (splitPath file_path) with
  | .error e => "Error analyzing code: " ++ e
  | .ok content =>
      let lines := pySplitNl content
      let line_count := lines.length
      let imports := lines.filter (fun line =>
        pyStartsWith (pyStrip line) "import " || pyStartsWith (pyStrip line) "from ")
      let functions := lines.filter (fun line => pyStartsWith (pyStrip line) "def ")
      let classes := lines.filter (fun line => pyStartsWith (pyStrip line) "class ")
      let analysis :=
        "Code Analysis for \x27" ++ file_path ++ "\x27:\n" ++
        "- Total lines: " ++ toString line_count ++ "\n" ++
        "- Imports: " ++ toString imports.length ++ "\n" ++
        "- Functions: " ++ toString functions.length ++ "\n" ++
        "- Classes: " ++ toString classes.length ++ "\n\n"
      if imports ≠ [] then
        analysis ++ "Imports found:\n" ++
          String.join ((imports.take 5).map (fun imp => "  " ++ pyStrip imp ++ "\n"))
      else analysis

/-! ## JSON model

Executable model of the JSON fragment exchanged by the loop: `json.loads`
as a recursive-descent parser (objects, arrays, strings with the common
escapes, integer numerals, `true`/`false`/`null`), `json.dumps` as a
printer with Python's default separators. -/

inductive Json where
  | null : Json
  | bool (b : Bool) : Json
  | num (n : Int) : Json
  | str (s : String) : Json
  | arr (elems : List Json) : Json
  | obj (fields : List (String × Json)) : Json
deriving Repr

def Json.isObj : Json → Bool
  | .obj _ => true
  | _ => false

/-- Python truthiness of a decoded JSON value (`if not x`). -/
def jfalsy : Json → Bool
  | .null => true
  | .bool b => !b
  | .num n => n = 0
  | .str s => s = ""
  | .arr l => l.isEmpty
  | .obj l => l.isEmpty

/-- `dict.get k` on a decoded object. -/
def lookupJ (fields : List (String × Json)) (k : String) : Option Json :=
  (fields.find? (fun e => e.1 = k)).map (fun e => e.2)

def jskipWs : List Char → List Char
  | c :: cs => if c = ' ' || c = '\t' || c = '\n' || c = '\r' then jskipWs cs else c :: cs
  | [] => []

/-- Parse a JSON string body after the opening quote. -/
def jparseStr : List Char → Except String (String × List Char)
  | [] => .error "Unterminated string"
  | '"' :: rest => .ok ("", rest)
  | '\\' :: e :: rest =>
      (match e with
       | '"' => jparseStr rest |>.map (fun r => ("\"" ++ r.1, r.2))
       | '\\' => jparseStr rest |>.map (fun r => ("\\" ++ r.1, r.2))
       | '/' => jparseStr rest |>.map (fun r => ("/" ++ r.1, r.2))
       | 'n' => jparseStr rest |>.map (fun r => ("\n" ++ r.1, r.2))
       | 't' => jparseStr rest |>.map (fun r => ("\t" ++ r.1, r.2))
       | 'r' => jparseStr rest |>.map (fun r => ("\r" ++ r.1, r.2))
       | _ => .error "Invalid \\escape")
  | '\\' :: [] => .error "Unterminated string"
  | c :: rest => jparseStr rest |>.map (fun r => (String.mk [c] ++ r.1, r.2))

def jparseDigits : List Char → Nat → Option (Nat × List Char)
  | c :: cs, acc =>
      if c.isDigit then jparseDigits cs (acc * 10 + (c.toNat - '0'.toNat))
      else some (acc, c :: cs)
  | [], acc => some (acc, [])

mutual

def jparseVal : Nat → List Char → Except String (Json × List Char)
  | 0, _ => .error "Depth limit"
  | fuel + 1, s =>
    match jskipWs s with
    | [] => .error "Expecting value"
    | c :: rest =>
      if c = '"' then jparseStr rest |>.map (fun r => (.str r.1, r.2))
      else if c = 'n' then
        match rest with
        | 'u' :: 'l' :: 'l' :: r2 => .ok (.null, r2)
        | _ => .error "Expecting value"
      else if c = 't' then
        match rest with
        | 'r' :: 'u' :: 'e' :: r2 => .ok (.bool true, r2)
        | _ => .error "Expecting value"
      else if c = 'f' then
        match rest with
        | 'a' :: 'l' :: 's' :: 'e' :: r2 => .ok (.bool false, r2)
        | _ => .error "Expecting value"
      else if c = '-' then
        match rest with
        | d :: _ =>
            if d.isDigit then
              match jparseDigits rest 0 with
              | some (n, r2) => .ok (.num (-(n : Int)), r2)
              | none => .error "Expecting value"
            else .error "Expecting value"
        | [] => .error "Expecting value"
      else if c.isDigit then
        match jparseDigits (c :: rest) 0 with
        | some (n, r2) => .ok (.num (n : Int), r2)
        | none => .error "Expecting value"
      else if c = '[' then
        match jskipWs rest with
        | ']' :: r2 => .ok (.arr [], r2)
        | r1 => jparseElems fuel r1 |>.map (fun r => (.arr r.1, r.2))
      else if c = '\x7b' then
        match jskipWs rest with
        | '\x7d' :: r2 => .ok (.obj [], r2)
        | r1 => jparseMembers fuel r1 |>.map (fun r => (.obj r.1, r.2))
      else .error "Expecting value"

def jparseElems : Nat → List Char → Except String (List Json × List Char)
  | 0, _ => .error "Depth limit"
  | fuel + 1, s =>
    match jparseVal fuel s with
    | .error e => .error e
    | .ok (v, rest) =>
      match jskipWs rest with
      | ',' :: r2 =>
          (jparseElems fuel r2).map (fun r => (v :: r.1, r.2))
      | ']' :: r2 => .ok ([v], r2)
      | _ => .error "Expecting \x27,\x27 delimiter"

def jparseMembers : Nat → List Char → Except String (List (String × Json) × List Char)
  | 0, _ => .error "Depth limit"
  | fuel + 1, s =>
    match jskipWs s with
    | '"' :: r1 =>
      match jparseStr r1 with
      | .error e => .error e
      | .ok (k, r2) =>
        match jskipWs r2 with
        | ':' :: r3 =>
          match jparseVal fuel r3 with
          | .error e => .error e
          | .ok (v, r4) =>
            match jskipWs r4 with
            | ',' :: r5 => (jparseMembers fuel r5).map (fun r => ((k, v) :: r.1, r.2))
            | '\x7d' :: r5 => .ok ([(k, v)], r5)
            | _ => .error "Expecting \x27,\x27 delimiter"
        | _ => .error "Expecting \x27:\x27 delimiter"
    | _ => .error "Expecting property name enclosed in double quotes"

end

/-- `json.loads` on the fragment above. -/
def jsonParse (s : String) : Except String Json :=
  match jparseVal (s.length + 1) s.toList with
  | .error e => .error e
  | .ok (v, rest) =>
      match jskipWs rest with
      | [] => .ok v
      | _ => .error "Extra data"

/-- Escape a string as a JSON literal (the escapes `json.dumps` emits for
the characters appearing here). -/
def jescape (s : String) : String :=
  String.join (s.toList.map (fun c =>
    if c = '"' then "\\\""
    else if c = '\\' then "\\\\"
    else if c = '\n' then "\\n"
    else if c = '\t' then "\\t"
    else if c = '\r' then "\\r"
    else String.mk [c]))

mutual

/-- `json.dumps` with the default separators. -/
def jsonDumps : Json → String
  | .null => "null"
  | .bool true => "true"
  | .bool false => "false"
  | .num n => toString n
  | .str s => "\"" ++ jescape s ++ "\""
  | .arr elems => "[" ++ String.intercalate ", " (jsonDumpsList elems) ++ "]"
  | .obj fields => "\x7b" ++ String.intercalate ", " (jsonDumpsFields fields) ++ "\x7d"

def jsonDumpsList : List Json → List String
  | [] => []
  | v :: vs => jsonDumps v :: jsonDumpsList vs

def jsonDumpsFields : List (String × Json) → List String
  | [] => []
  | (k, v) :: vs => ("\"" ++ jescape k ++ "\": " ++ jsonDumps v) :: jsonDumpsFields vs

end

/-! ## The conversation loop (`run_assistant`, assistant_core.py lines
134-227).

Python's mutable message lists are modelled with an explicit heap: a heap
is a list of message lists, a reference is an index into it, `list(xs)`
allocates a fresh cell, `xs.append(m)` mutates a cell in place.  The
OpenAI client is an oracle: each loop iteration consumes the next entry of
`responses`, which is either `.ok content` (a successful call returning
that message content) or `.error e` (the call raised).  When the oracle is
exhausted the model run is cut off (`outOfResponses`), standing for the
source's unbounded further iterations. -/

structure Msg where
  role : String
  content : String
deriving DecidableEq, Repr

/-- The heap of Python message lists. -/
abbrev Heap := List (List Msg)

def readRef (h : Heap) (r : Nat) : List Msg := h.getD r []

def alloc (h : Heap) (l : List Msg) : Heap × Nat := (h ++ [l], h.length)

/-- `xs.append(m)`: in-place mutation of the cell `r`. -/
def appendMsg (h : Heap) (r : Nat) (m : Msg) : Heap :=
  h.set r (readRef h r ++ [m])

/-- Stand-in for the `SYSTEM_PROMPT` constant (assistant_core.py lines
13-125).  The prompt is a fixed instruction text whose exact content never
influences the control flow modelled here, so it is abbreviated. -/
def SYSTEM_PROMPT : String :=
  "You are an expert AI Coding Assistant using chain-of-thought reasoning with structured steps: START, PLAN, TOOL, OUTPUT."

structure AState where
  heap : Heap
  ref : Nat
  fs : FS
deriving Repr

inductive RunOutcome where
  | ok (answer : Json) (st : AState)
  | exn (err : String) (st : AState)
  | outOfResponses (st : AState)
deriving Repr

/-- The run ended with an uncaught Python exception. -/
def RunOutcome.isExn : RunOutcome → Bool
  | .exn _ _ => true
  | _ => false

def RunOutcome.heapOf : RunOutcome → Heap
  | .ok _ st => st.heap
  | .exn _ st => st.heap
  | .outOfResponses st => st.heap

/-- The value returned to the caller, when the run returned. -/
def RunOutcome.answer? : RunOutcome → Option Json
  | .ok a _ => some a
  | _ => none

/-- Keys of `AVAILABLE_TOOLS` (tools.py lines 323-329), in order. -/
def toolNames : List String :=
  ["run_command", "create_file", "read_file", "write_file", "analyze_code"]

/-- Python `s.split('\n', 1)`. -/
def splitOnceNlAux : List Char → List Char → String × Option String
  | [], acc => (String.mk acc.reverse, none)
  | c :: cs, acc =>
      if c = '\n' then (String.mk acc.reverse, some (String.mk cs))
      else splitOnceNlAux cs (c :: acc)

def splitOnceNl (s : String) : String × Option String :=
  splitOnceNlAux s.toList []

/-- `step == "X"` where `step` came from `dict.get("step")`. -/
def stepIs (o : Option Json) (s : String) : Bool :=
  match o with
  | some (.str t) => t = s
  | _ => false

/-- Python `str()` of a decoded JSON value, for the unknown-tool message
(only strings reach it in the properties below). -/
def pyStr : Json → String
  | .str s => s
  | v => jsonDumps v

/-- `f"Error: Tool '{tool_to_call}' not found. ..."` (assistant_core.py
line 190). -/
def unknownToolMsg (toolVal : Json) : String :=
  "Error: Tool \x27" ++ pyStr toolVal ++
    "\x27 not found. Available tools: [\x27run_command\x27, \x27create_file\x27, \x27read_file\x27, \x27write_file\x27, \x27analyze_code\x27]"

/--
Tool dispatch for a known tool name (assistant_core.py lines 192-218).
`create_file`/`write_file` split the input at the first newline into path
and content; the remaining tools receive the input verbatim.  A non-string
input makes the Python code raise inside the `try` of lines 188-220 and is
therefore converted to the line-220 error text.
-/
def dispatchTool (sys : String → Int) (user_query tname : String) (inputVal : Json)
    (fs : FS) : String × FS :=
  if tname = "create_file" || tname = "write_file" then
    if jfalsy inputVal then ("Error: No input provided for " ++ tname, fs)
    else
      match inputVal with
      | .str s =>
          let lines := splitOnceNl s
          let file_path := pyStrip lines.1
          let content := (lines.2).getD ""
          if file_path = "" then ("Error: No file path provided", fs)
          else if tname = "create_file" then create_file fs file_path content user_query
          else write_file fs file_path content
      | _ => ("Error executing tool " ++ tname ++ ": input is not a string", fs)
  else
    if jfalsy inputVal then ("Error: No input provided for " ++ tname, fs)
    else
      match inputVal with
      | .str s =>
          if tname = "run_command" then (run_command sys s, fs)
          else if tname = "read_file" then (read_file fs s, fs)
          else (analyze_code fs s, fs)
      | _ => ("Error executing tool " ++ tname ++ ": input is not a string", fs)

/-- One iteration of the `while True` loop (assistant_core.py lines
159-227): one model call, one parse, at most one tool invocation.
`.inl` continues the loop, `.inr` leaves it. -/
def loopStep (sys : String → Int) (user_query : String) (st : AState)
    (resp : Except String String) : AState ⊕ RunOutcome :=
  match resp with
  | .error e => .inr (.ok (.str ("API Error: " ++ e)) st)
  | .ok raw =>
    let st1 : AState := { st with heap := appendMsg st.heap st.ref ⟨"assistant", raw⟩ }
    match jsonParse raw with
    | .error e =>
        .inr (.ok (.str ("Failed to parse AI response as JSON: " ++ e ++
          "\nRaw response: " ++ raw)) st1)
    | .ok parsed =>
      match parsed with
      | .obj fields =>
        let step := lookupJ fields "step"
        if stepIs step "START" || stepIs step "PLAN" then .inl st1
        else if stepIs step "TOOL" then
          let toolVal := (lookupJ fields "tool").getD (.str "")
          let inputVal := (lookupJ fields "input").getD (.str "")
          let known := match toolVal with
            | .str t => toolNames.contains t
            | _ => false
          let result :=
            if known then
              match toolVal with
              | .str tname => dispatchTool sys user_query tname inputVal st1.fs
              | _ => (unknownToolMsg toolVal, st1.fs)
            else (unknownToolMsg toolVal, st1.fs)
          let observe := jsonDumps (.obj
            [("step", .str "OBSERVE"), ("tool", toolVal), ("input", inputVal),
             ("output", .str result.1)])
          .inl { heap := appendMsg st1.heap st1.ref ⟨"developer", observe⟩,
                 ref := st1.ref, fs := result.2 }
        else if stepIs step "OUTPUT" then
          .inr (.ok ((lookupJ fields "content").getD (.str "")) st1)
        else .inl st1
      | _ =>
          -- line 181: `parsed_result.get("step")` on a non-dict value raises,
          -- outside every `try` of the function.
          .inr (.exn "AttributeError: object has no attribute \x27get\x27" st1)

def runLoop (sys : String → Int) (user_query : String) :
    AState → List (Except String String) → RunOutcome
  | st, [] => .outOfResponses st
  | st, resp :: rest =>
    match loopStep sys user_query st resp with
    | .inr out => out
    | .inl st1 => runLoop sys user_query st1 rest

/-- Lines 152-157 of assistant_core.py: seed the history with the system
prompt, or copy the caller's list (`message_history = list(message_history)`),
then append the user message in place. -/
def initState (user_query : String) (heap0 : Heap) (message_history : Option Nat)
    (fs0 : FS) : AState :=
  let start := match message_history with
    | none => alloc heap0 [⟨"system", SYSTEM_PROMPT⟩]
    | some r0 => alloc heap0 (readRef heap0 r0)
  ⟨appendMsg start.1 start.2 ⟨"user", user_query⟩, start.2, fs0⟩

/-- `run_assistant` (assistant_core.py lines 134-227).  `message_history`
is an optional reference to a caller-owned message list in `heap0`;
`None` seeds a fresh history with the system prompt, and a provided list
is first copied (`list(message_history)`, line 156). -/
def run_assistant (sys : String → Int) (user_query : String) (heap0 : Heap)
    (message_history : Option Nat) (fs0 : FS)
    (responses : List (Except String String)) : RunOutcome :=
  runLoop sys user_query (initState user_query heap0 message_history fs0) responses

/-! ## Helper lemmas. -/

theorem stringMk_toList (s : String) : String.mk s.toList = s := by
  cases s
  rfl

theorem toList_append (a b : String) : (a ++ b).toList = a.toList ++ b.toList :=
  String.data_append a b

theorem strContains_self (s : String) : strContains s s = true := by
  simp [strContains]

theorem strContains_left (a b pat : String) (h : strContains a pat = true) :
    strContains (a ++ b) pat = true := by
  simp only [strContains, decide_eq_true_eq] at *
  exact h.trans ⟨[], b.toList, by simp [toList_append]⟩

theorem strContains_right (a b pat : String) (h : strContains b pat = true) :
    strContains (a ++ b) pat = true := by
  simp only [strContains, decide_eq_true_eq] at *
  exact h.trans ⟨a.toList, [], by simp [toList_append]⟩

theorem find?_eq_none_of_all_not {α : Type} (l : List α) (f : α → Bool)
    (h : l.all (fun x => !f x) = true) : l.find? f = none := by
  rw [List.find?_eq_none]
  intro x hx hfx
  have hh := (List.all_eq_true.mp h) x hx
  rw [hfx] at hh
  exact absurd hh (by decide)

/-! ## Claim theorems: the command safety filter. -/

/--
C4: every command containing a token of the metacharacter denylist is
blocked, regardless of any allowlisted prefix: `run_command` returns the
chaining/injection rejection text, a blocked verdict.
-/
theorem run_command_denylist_blocked (sys : String → Int) (cmd : String)
    (h : ∃ pattern ∈ dangerous_patterns, strContains cmd pattern = true) :
    run_command sys cmd =
      "❌ Command blocked for security: \x27" ++ cmd ++
        "\x27. Command chaining/injection not allowed." ∧
    isBlocked (run_command sys cmd) = true := by
  have hs : (dangerous_patterns.find? (fun pattern => strContains cmd pattern)).isSome = true :=
    List.find?_isSome.mpr h
  obtain ⟨q, hq⟩ := Option.isSome_iff_exists.mp hs
  have heq : run_command sys cmd =
      "❌ Command blocked for security: \x27" ++ cmd ++
        "\x27. Command chaining/injection not allowed." := by
    unfold run_command
    rw [hq]
  refine ⟨heq, ?_⟩
  rw [heq]
  apply strContains_left
  apply strContains_left
  decide

/-- Witness for C4 on the spec's own example. -/
theorem run_command_denylist_blocked_witness :
    isBlocked (run_command (fun _ => 0) "git status && rm -rf /") = true :=
  (run_command_denylist_blocked (fun _ => 0) "git status && rm -rf /"
    ⟨"&&", by decide, by decide⟩).2

set_option maxRecDepth 8000 in
/--
C5, counterexample: the claim says every command whose lowercasing
contains a dangerous substring is blocked with that substring named in
the reason.  For `"SUDO WGET"` the lowercasing contains the dangerous
entry `"wget"`, the command is blocked, but the reason (which names the
first match, `"sudo"`, and echoes the command uppercase) nowhere contains
`"wget"`.
-/
theorem run_command_dangerous_cex :
    ("wget" ∈ DANGEROUS_COMMANDS ∧
      strContains (lowerStrip "SUDO WGET") "wget" = true) ∧
    isBlocked (run_command (fun _ => 0) "SUDO WGET") = true ∧
    strContains (run_command (fun _ => 0) "SUDO WGET") "wget" = false := by
  refine ⟨⟨by decide, by decide⟩, by decide, by decide⟩

/--
C5 as amended: for every command free of denylisted metacharacter tokens
whose lowercasing contains a dangerous substring, `run_command` returns a
blocked verdict, and the reason names the matched dangerous entry (the
first matching entry of `DANGEROUS_COMMANDS`).
-/
theorem run_command_dangerous_blocked (sys : String → Int) (cmd : String)
    (hmeta : dangerous_patterns.all (fun pattern => !(strContains cmd pattern)) = true)
    (hdang : ∃ d ∈ DANGEROUS_COMMANDS, strContains (lowerStrip cmd) d = true) :
    isBlocked (run_command sys cmd) = true ∧
    ∃ d ∈ DANGEROUS_COMMANDS, strContains (lowerStrip cmd) d = true ∧
      strContains (run_command sys cmd) d = true := by
  have hnone := find?_eq_none_of_all_not dangerous_patterns
    (fun pattern => strContains cmd pattern) hmeta
  have hs : (DANGEROUS_COMMANDS.find?
      (fun dangerous => strContains (lowerStrip cmd) dangerous)).isSome = true :=
    List.find?_isSome.mpr hdang
  obtain ⟨d0, hd0⟩ := Option.isSome_iff_exists.mp hs
  have heq : run_command sys cmd =
      "❌ Command blocked for security: \x27" ++ cmd ++
        "\x27. Dangerous operation detected: \x27" ++ d0 ++ "\x27" := by
    unfold run_command
    rw [hnone, hd0]
  constructor
  · rw [heq]
    apply strContains_left
    apply strContains_left
    apply strContains_left
    apply strContains_left
    decide
  · refine ⟨d0, List.mem_of_find?_eq_some hd0, List.find?_some hd0, ?_⟩
    rw [heq]
    apply strContains_left
    apply strContains_right
    exact strContains_self d0

/-- Witness for the amended C5 on the spec's own example. -/
theorem run_command_dangerous_blocked_witness :
    isBlocked (run_command (fun _ => 0) "sudo apt install x") = true :=
  (run_command_dangerous_blocked (fun _ => 0) "sudo apt install x"
    (by decide) ⟨"sudo", by decide, by decide⟩).1

/--
C6: every command whose lowercasing starts with an allowlisted safe
prefix and that contains no denylisted metacharacter token and no
dangerous substring is allowed and executed (the result is the
exit-code-annotated success text built from the host `os.system` call).
-/
theorem run_command_safe_allowed (sys : String → Int) (cmd : String)
    (hmeta : dangerous_patterns.all (fun pattern => !(strContains cmd pattern)) = true)
    (hdang : DANGEROUS_COMMANDS.all
      (fun dangerous => !(strContains (lowerStrip cmd) dangerous)) = true)
    (hsafe : SAFE_COMMANDS.any
      (fun safe_cmd => pyStartsWith (lowerStrip cmd) (pyLower safe_cmd)) = true) :
    run_command sys cmd =
      "✅ Command executed safely: \x27" ++ cmd ++
        "\x27 (exit code: " ++ toString (sys cmd) ++ ")" ∧
    isExecuted (run_command sys cmd) = true := by
  have h1 := find?_eq_none_of_all_not dangerous_patterns
    (fun pattern => strContains cmd pattern) hmeta
  have h2 := find?_eq_none_of_all_not DANGEROUS_COMMANDS
    (fun dangerous => strContains (lowerStrip cmd) dangerous) hdang
  have heq : run_command sys cmd =
      "✅ Command executed safely: \x27" ++ cmd ++
        "\x27 (exit code: " ++ toString (sys cmd) ++ ")" := by
    unfold run_command
    rw [h1, h2, if_pos hsafe]
  refine ⟨heq, ?_⟩
  rw [heq]
  apply strContains_left
  apply strContains_left
  apply strContains_left
  apply strContains_left
  decide

/-- Witness for C6 on the spec's own example. -/
theorem run_command_safe_allowed_witness :
    run_command (fun _ => 0) "git log" =
      "✅ Command executed safely: \x27git log\x27 (exit code: 0)" :=
  (run_command_safe_allowed (fun _ => 0) "git log"
    (by decide) (by decide) (by decide)).1

/-! ## Claim theorems: the file tools. -/

/--
C1: the claim (and the source's own documentation — the `write_file`
docstring and the system prompt's Example 6) says `write_file` on a path
found nowhere returns an error and creates nothing.  The code instead
falls through to `open(path, "w")`, which creates the file at the literal
path and reports success: evaluating the embedding at the failing input
`write_file("nonexistent.py", ...)` on an empty working directory shows
the file being created and the success text returned.
-/
theorem write_file_creates_missing_path :
    pathExists emptyFS ["nonexistent.py"] = false ∧
    (write_file emptyFS "nonexistent.py" "print(\x27test\x27)").1 =
      "File \x27nonexistent.py\x27 updated successfully." ∧
    isFile (write_file emptyFS "nonexistent.py" "print(\x27test\x27)").2
      ["nonexistent.py"] = true := by
  refine ⟨by decide, by decide, by decide⟩

/--
C2, counterexample: the round-trip claim quantifies over every path and
content.  For `p = "notes/x.py"` on an empty working directory,
`create_file(p, c)` fails (the parent directory does not exist and the
separator suppresses all location inference), and the subsequent
`read_file(p)` does not return the content `c` but an error text.
-/
theorem create_then_read_cex :
    (create_file emptyFS "notes/x.py" "hi" "").1 =
      "Error creating file: [Errno 2] No such file or directory: \x27notes/x.py\x27" ∧
    (create_file emptyFS "notes/x.py" "hi" "").2 = emptyFS ∧
    read_file (create_file emptyFS "notes/x.py" "hi" "").2 "notes/x.py" ≠
      "File contents:\nhi" := by
  refine ⟨by decide, by decide, by decide⟩

theorem splitCharsOn_no_sep (sep : Char) (l : List Char) (h : ∀ c ∈ l, c ≠ sep) :
    ∀ acc, splitCharsOn sep l acc = [acc.reverse ++ l] := by
  induction l with
  | nil => intro acc; simp [splitCharsOn]
  | cons c cs ih =>
      intro acc
      have hc : c ≠ sep := h c (by simp)
      rw [splitCharsOn, if_neg hc, ih (fun x hx => h x (by simp [hx]))]
      simp

theorem not_mem_of_not_strContains_slash (p : String)
    (h : strContains p "/" = false) : ∀ c ∈ p.toList, c ≠ '/' := by
  intro c hc heq
  subst heq
  simp only [strContains, decide_eq_false_iff_not] at h
  apply h
  obtain ⟨s, t, hst⟩ := List.append_of_mem hc
  exact ⟨s, t, by rw [hst, show "/".toList = ['/'] from by decide]; simp⟩

/-- A path with no separator is a single component. -/
theorem splitPath_single (p : String) (h : strContains p "/" = false) :
    splitPath p = [p] := by
  unfold splitPath
  rw [splitCharsOn_no_sep '/' p.toList (not_mem_of_not_strContains_slash p h) []]
  simp [stringMk_toList]

/--
C2 as amended: for a plain file name (non-empty, no `/` or `\`, not the
special names `.`/`..` nor `ai_projects`) and any content, starting from
an empty working directory, `create_file(p, c)` followed by
`read_file(p)` returns exactly the created content (behind the fixed
`"File contents:\n"` banner) — whether the file was placed literally or
inside the inferred `ai_projects` project container.
-/
theorem create_then_read_roundtrip (p c : String)
    (h0 : p ≠ "") (h1 : strContains p "/" = false) (h2 : strContains p "\\" = false)
    (h3 : p ≠ "ai_projects") (h4 : p ≠ ".") (h5 : p ≠ "..") :
    read_file (create_file emptyFS p c "").2 p = "File contents:\n" ++ c := by
  have hsplit : splitPath p = [p] := splitPath_single p h1
  have hext : extract_custom_location "" = none := rfl
  have hdetect : detect_project_name_and_location p c "" =
      (detect_project_type p c,
        if (detect_project_type p c).isSome then some "ai_projects" else none) := by
    unfold detect_project_name_and_location
    rw [h1, h2, hext]
    rfl
  cases hpn : detect_project_type p c with
  | none =>
      have hcf : create_file emptyFS p c "" =
          ("File \x27" ++ p ++ "\x27 created successfully.",
            ⟨[], [([p], c)]⟩) := by
        unfold create_file
        rw [hdetect, hpn, hsplit]
        simp [openWrite, isDir, setFile, emptyFS]
      rw [hcf]
      simp [read_file, resolveSearch, pathExists, isDir, isFile, lookupFile,
        openRead, hsplit, emptyFS]
  | some n =>
      have hcf : create_file emptyFS p c "" =
          ("File \x27" ++ joinPath ["ai_projects", n, p] ++ "\x27 created successfully.",
            ⟨[["ai_projects"], ["ai_projects", n]], [(["ai_projects", n, p], c)]⟩) := by
        unfold create_file
        rw [hdetect, hpn]
        simp only [Option.isSome_some, if_true]
        have hsp : splitPath "ai_projects" = ["ai_projects"] := by decide
        rw [hsp, hsplit]
        simp [mkdirParents, mkdirOne, openWrite, isDir, isFile, lookupFile,
          setFile, emptyFS, List.range_succ]
      rw [hcf]
      simp only [read_file, resolveSearch, pathExists, isDir, isFile,
        lookupFile, openRead, dirChildren, listdirRoot, hsplit]
      simp [h3, List.isPrefixOf, List.find?, joinPath]

/-- Witness for the amended C2, on a name routed into the project
container. -/
theorem create_then_read_roundtrip_witness :
    read_file (create_file emptyFS "todo.py" "print(1)" "").2 "todo.py" =
      "File contents:\n" ++ "print(1)" :=
  create_then_read_roundtrip "todo.py" "print(1)" (by decide) (by decide)
    (by decide) (by decide) (by decide) (by decide)

/--
C9: (a) `create_file("todo.py", c, "Create a todo app")` places the file
under the `todo` project container `ai_projects/todo_app/` — the request
phrase matches no custom-location pattern, and the `todo` filename
keyword picks the container; (b) for every path already containing a
separator (`/` or `\`), no location inference occurs: the detector
returns no project and no base, and `create_file` writes at the literal
caller-supplied path.
-/
theorem create_file_location_inference :
    (∀ c : String,
      create_file emptyFS "todo.py" c "Create a todo app" =
        ("File \x27ai_projects/todo_app/todo.py\x27 created successfully.",
          ⟨[["ai_projects"], ["ai_projects", "todo_app"]],
            [(["ai_projects", "todo_app", "todo.py"], c)]⟩)) ∧
    (∀ (fs : FS) (p c q : String),
      strContains p "/" = true ∨ strContains p "\\" = true →
      detect_project_name_and_location p c q = (none, none) ∧
      create_file fs p c q =
        (match openWrite fs (splitPath p) c with
         | .error e => ("Error creating file: " ++ e, fs)
         | .ok fs1 => ("File \x27" ++ p ++ "\x27 created successfully.", fs1))) := by
  constructor
  · intro c
    have hq : extract_custom_location "Create a todo app" = none := by decide
    have hpt : detect_project_type "todo.py" c = some "todo_app" := rfl
    have hd : detect_project_name_and_location "todo.py" c "Create a todo app" =
        (some "todo_app", some "ai_projects") := by
      unfold detect_project_name_and_location
      rw [show strContains "todo.py" "/" = false from by decide]
      rw [show strContains "todo.py" "\\" = false from by decide]
      rw [hq, hpt]
      rfl
    unfold create_file
    rw [hd]
    simp [mkdirParents, mkdirOne, openWrite, isDir, isFile, lookupFile,
      setFile, emptyFS, List.range_succ, splitPath, splitCharsOn, joinPath]
    decide
  · intro fs p c q h
    have hd : detect_project_name_and_location p c q = (none, none) := by
      unfold detect_project_name_and_location
      rcases h with h | h <;> simp [h]
    refine ⟨hd, ?_⟩
    unfold create_file
    rw [hd]

/-! ## Claim theorems: the conversation loop. -/

/-- The model content decodes as JSON but not as a JSON object (the case
that reaches `.get` on a non-dict at assistant_core.py line 181). -/
def parsesToNonObj (raw : String) : Bool :=
  match jsonParse raw with
  | .ok v => !v.isObj
  | .error _ => false

theorem loopStep_no_exn (sys : String → Int) (uq : String) (st : AState)
    (r : Except String String)
    (h : ∀ raw, r = Except.ok raw → parsesToNonObj raw = false) :
    ∀ out, loopStep sys uq st r = Sum.inr out → out.isExn = false := by
  intro out hout
  match r with
  | .error e =>
      unfold loopStep at hout
      dsimp only at hout
      cases hout
      rfl
  | .ok raw =>
      have hr := h raw rfl
      unfold loopStep at hout
      dsimp only at hout
      cases hp : jsonParse raw with
      | error e =>
          rw [hp] at hout
          cases hout
          rfl
      | ok v =>
          rw [hp] at hout
          cases v with
          | obj fields =>
              simp only at hout
              repeat' split at hout
              all_goals first
                | (cases hout; rfl)
                | cases hout
          | null => simp [parsesToNonObj, hp, Json.isObj] at hr
          | bool b => simp [parsesToNonObj, hp, Json.isObj] at hr
          | num n => simp [parsesToNonObj, hp, Json.isObj] at hr
          | str s => simp [parsesToNonObj, hp, Json.isObj] at hr
          | arr l => simp [parsesToNonObj, hp, Json.isObj] at hr

theorem runLoop_no_exn (sys : String → Int) (uq : String)
    (responses : List (Except String String)) :
    ∀ st, (∀ r ∈ responses, ∀ raw, r = Except.ok raw → parsesToNonObj raw = false) →
    (runLoop sys uq st responses).isExn = false := by
  induction responses with
  | nil => intro st _; rfl
  | cons r rest ih =>
      intro st h
      unfold runLoop
      cases hls : loopStep sys uq st r with
      | inr out =>
          dsimp only
          exact loopStep_no_exn sys uq st r (h r (by simp)) out hls
      | inl st1 =>
          dsimp only
          exact ih st1 (fun x hx => h x (by simp [hx]))

/--
C3, counterexample: the claim says `run_assistant` always returns a
string, even when the model response is valid JSON that is not an object
of the step schema.  For the response content `"[1, 2]"` (valid JSON, an
array), line 181 calls `.get` on the parsed list outside every `try`,
and the `AttributeError` escapes `run_assistant`.
-/
theorem run_assistant_nonobj_exn_cex :
    (run_assistant (fun _ => 0) "hi" [] none emptyFS
      [Except.ok "[1, 2]"]).isExn = true := by
  rfl

/--
C3 as amended: `run_assistant` returns a value to the caller — final
answer or diagnostic error string — with no escaping exception, provided
every successful model response either fails to decode as JSON or decodes
to a JSON object; a response decoding to a non-object JSON value instead
raises an uncaught `AttributeError` (see the counterexample).
-/
theorem run_assistant_no_exn (sys : String → Int) (uq : String) (heap0 : Heap)
    (mh : Option Nat) (fs0 : FS) (responses : List (Except String String))
    (h : ∀ r ∈ responses, ∀ raw, r = Except.ok raw → parsesToNonObj raw = false) :
    (run_assistant sys uq heap0 mh fs0 responses).isExn = false := by
  unfold run_assistant
  exact runLoop_no_exn sys uq responses _ h

/-- Witness for the amended C3: a run whose responses are all objects or
non-JSON ends without an escaping exception. -/
theorem run_assistant_no_exn_witness :
    (run_assistant (fun _ => 0) "hi" [] none emptyFS
      [Except.ok "\x7b\"step\": \"OUTPUT\", \"content\": \"done\"\x7d"]).isExn = false :=
  run_assistant_no_exn (fun _ => 0) "hi" [] none emptyFS
    [Except.ok "\x7b\"step\": \"OUTPUT\", \"content\": \"done\"\x7d"]
    (by intro r hr raw hraw; simp at hr; rw [hr] at hraw; cases hraw; decide)

/--
C7: a model response whose content fails to decode as JSON is terminal
for the current run: the loop returns immediately (the outcome does not
depend on any further oracle responses — no retry), with an error string
that contains both the parse error and the raw response text.
-/
theorem parse_failure_terminal (sys : String → Int) (uq raw e : String)
    (heap0 : Heap) (mh : Option Nat) (fs0 : FS)
    (rest : List (Except String String))
    (h : jsonParse raw = .error e) :
    (run_assistant sys uq heap0 mh fs0 (Except.ok raw :: rest)).answer? =
      some (.str ("Failed to parse AI response as JSON: " ++ e ++
        "\nRaw response: " ++ raw)) ∧
    run_assistant sys uq heap0 mh fs0 (Except.ok raw :: rest) =
      run_assistant sys uq heap0 mh fs0 [Except.ok raw] ∧
    strContains ("Failed to parse AI response as JSON: " ++ e ++
      "\nRaw response: " ++ raw) e = true ∧
    strContains ("Failed to parse AI response as JSON: " ++ e ++
      "\nRaw response: " ++ raw) raw = true := by
  have key : ∀ (st : AState) (tail : List (Except String String)),
      runLoop sys uq st (Except.ok raw :: tail) =
        .ok (.str ("Failed to parse AI response as JSON: " ++ e ++
            "\nRaw response: " ++ raw))
          ⟨appendMsg st.heap st.ref ⟨"assistant", raw⟩, st.ref, st.fs⟩ := by
    intro st tail
    unfold runLoop loopStep
    dsimp only
    rw [h]
  refine ⟨?_, ?_, ?_, ?_⟩
  · unfold run_assistant
    rw [key]
    rfl
  · unfold run_assistant
    rw [key, key]
  · apply strContains_left
    apply strContains_left
    apply strContains_right
    exact strContains_self e
  · apply strContains_right
    exact strContains_self raw

/-- Witness for C7 at a concrete non-JSON response. -/
theorem parse_failure_terminal_witness :
    (run_assistant (fun _ => 0) "hi" [] none emptyFS
        [Except.ok "oops"]).answer? =
      some (.str ("Failed to parse AI response as JSON: " ++ "Expecting value" ++
        "\nRaw response: " ++ "oops")) :=
  (parse_failure_terminal (fun _ => 0) "hi" "oops" "Expecting value"
    [] none emptyFS [] (by rfl)).1

/-- Evaluation of one TOOL iteration of the loop, given the decoded
object, the step, the tool/input fields and the computed dispatch
result. -/
theorem loopStep_tool_eval (sys : String → Int) (uq : String) (st : AState)
    (raw : String) (fields : List (String × Json))
    (resp : String) (fsr : FS)
    (hp : jsonParse raw = Except.ok (.obj fields))
    (hstep : lookupJ fields "step" = some (.str "TOOL"))
    (hres : (if (match (lookupJ fields "tool").getD (Json.str "") with
                 | Json.str t => toolNames.contains t
                 | _ => false) = true then
               (match (lookupJ fields "tool").getD (Json.str "") with
                | Json.str tname =>
                    dispatchTool sys uq tname
                      ((lookupJ fields "input").getD (Json.str "")) st.fs
                | _ => (unknownToolMsg ((lookupJ fields "tool").getD (Json.str "")), st.fs))
             else (unknownToolMsg ((lookupJ fields "tool").getD (Json.str "")), st.fs))
           = (resp, fsr)) :
    loopStep sys uq st (Except.ok raw) =
      Sum.inl ⟨appendMsg (appendMsg st.heap st.ref ⟨"assistant", raw⟩) st.ref
          ⟨"developer", jsonDumps (.obj
             [("step", .str "OBSERVE"),
              ("tool", (lookupJ fields "tool").getD (Json.str "")),
              ("input", (lookupJ fields "input").getD (Json.str "")),
              ("output", .str resp)])⟩,
        st.ref, fsr⟩ := by
  unfold loopStep
  dsimp only
  rw [hp]
  dsimp only
  rw [hstep]
  rw [show stepIs (some (Json.str "TOOL")) "START" = false from by decide]
  rw [show stepIs (some (Json.str "TOOL")) "PLAN" = false from by decide]
  rw [show stepIs (some (Json.str "TOOL")) "TOOL" = true from by decide]
  simp only [Bool.or_self, Bool.false_eq_true, if_false, if_true]
  rw [hres]

/--
C8: a parsed TOOL step whose tool name is missing/empty/unknown or whose
input is missing/empty neither terminates the run nor invokes any tool:
the loop appends a descriptive error text as the observation and
continues with the next model call, the filesystem unchanged.
-/
theorem tool_error_recovered (sys : String → Int) (uq : String) (st : AState)
    (raw : String) (rest : List (Except String String))
    (fields : List (String × Json))
    (hp : jsonParse raw = Except.ok (.obj fields))
    (hstep : lookupJ fields "step" = some (.str "TOOL"))
    (hbad : (∀ s, (lookupJ fields "tool").getD (.str "") = .str s →
              toolNames.contains s = false)
            ∨ (lookupJ fields "input").getD (.str "") = .str "") :
    ∃ resp : String,
      runLoop sys uq st (Except.ok raw :: rest) =
        runLoop sys uq
          ⟨appendMsg (appendMsg st.heap st.ref ⟨"assistant", raw⟩) st.ref
             ⟨"developer", jsonDumps (.obj
                [("step", .str "OBSERVE"),
                 ("tool", (lookupJ fields "tool").getD (.str "")),
                 ("input", (lookupJ fields "input").getD (.str "")),
                 ("output", .str resp)])⟩,
           st.ref, st.fs⟩ rest ∧
      strContains resp "Error" = true := by
  have herrU : ∀ v : Json, strContains (unknownToolMsg v) "Error" = true := by
    intro v
    unfold unknownToolMsg
    apply strContains_left
    apply strContains_left
    decide
  have herrI : ∀ t : String,
      strContains ("Error: No input provided for " ++ t) "Error" = true := by
    intro t
    apply strContains_left
    decide
  have step : ∀ resp fsr,
      loopStep sys uq st (Except.ok raw) =
        Sum.inl ⟨appendMsg (appendMsg st.heap st.ref ⟨"assistant", raw⟩) st.ref
            ⟨"developer", jsonDumps (.obj
               [("step", .str "OBSERVE"),
                ("tool", (lookupJ fields "tool").getD (.str "")),
                ("input", (lookupJ fields "input").getD (.str "")),
                ("output", .str resp)])⟩,
          st.ref, fsr⟩ →
      fsr = st.fs →
      strContains resp "Error" = true →
      ∃ resp : String,
        runLoop sys uq st (Except.ok raw :: rest) =
          runLoop sys uq
            ⟨appendMsg (appendMsg st.heap st.ref ⟨"assistant", raw⟩) st.ref
               ⟨"developer", jsonDumps (.obj
                  [("step", .str "OBSERVE"),
                   ("tool", (lookupJ fields "tool").getD (.str "")),
                   ("input", (lookupJ fields "input").getD (.str "")),
                   ("output", .str resp)])⟩,
             st.ref, st.fs⟩ rest ∧
        strContains resp "Error" = true := by
    intro resp fsr hls hfs herr
    subst hfs
    refine ⟨resp, ?_, herr⟩
    conv_lhs => unfold runLoop
    rw [hls]
  rcases hcase : (lookupJ fields "tool").getD (Json.str "") with _ | b | n | t | l | o
  case null =>
    rw [← hcase]
    exact step (unknownToolMsg Json.null) st.fs
      (loopStep_tool_eval sys uq st raw fields (unknownToolMsg Json.null) st.fs
        hp hstep (by rw [hcase]; rfl)) rfl (herrU _)
  case bool =>
    rw [← hcase]
    exact step (unknownToolMsg (Json.bool b)) st.fs
      (loopStep_tool_eval sys uq st raw fields (unknownToolMsg (Json.bool b)) st.fs
        hp hstep (by rw [hcase]; rfl)) rfl (herrU _)
  case num =>
    rw [← hcase]
    exact step (unknownToolMsg (Json.num n)) st.fs
      (loopStep_tool_eval sys uq st raw fields (unknownToolMsg (Json.num n)) st.fs
        hp hstep (by rw [hcase]; rfl)) rfl (herrU _)
  case arr =>
    rw [← hcase]
    exact step (unknownToolMsg (Json.arr l)) st.fs
      (loopStep_tool_eval sys uq st raw fields (unknownToolMsg (Json.arr l)) st.fs
        hp hstep (by rw [hcase]; rfl)) rfl (herrU _)
  case obj =>
    rw [← hcase]
    exact step (unknownToolMsg (Json.obj o)) st.fs
      (loopStep_tool_eval sys uq st raw fields (unknownToolMsg (Json.obj o)) st.fs
        hp hstep (by rw [hcase]; rfl)) rfl (herrU _)
  case str =>
    cases hc : toolNames.contains t with
    | false =>
        rw [← hcase]
        exact step (unknownToolMsg (Json.str t)) st.fs
          (loopStep_tool_eval sys uq st raw fields (unknownToolMsg (Json.str t)) st.fs
            hp hstep (by rw [hcase]; simp only [hc, Bool.false_eq_true, if_false])) rfl (herrU _)
    | true =>
        have hin : (lookupJ fields "input").getD (Json.str "") = .str "" := by
          rcases hbad with hb | hb
          · have := hb t hcase
            rw [hc] at this
            exact absurd this (by decide)
          · exact hb
        rw [← hcase]
        refine step ("Error: No input provided for " ++ t) st.fs
          (loopStep_tool_eval sys uq st raw fields
            ("Error: No input provided for " ++ t) st.fs hp hstep ?_) rfl
          (herrI t)
        rw [hcase, hin]
        simp only [hc, if_true]
        unfold dispatchTool
        rw [show jfalsy (Json.str "") = true from by decide]
        simp only [if_true, ite_self]

/-- Witness for C8: a TOOL step with no tool name produces an error
observation and the run continues (here: to the end of the oracle). -/
theorem tool_error_recovered_witness :
    (runLoop (fun _ => 0) "hi" ⟨[[]], 0, emptyFS⟩
      [Except.ok "\x7b\"step\": \"TOOL\"\x7d"]).isExn = false := by
  obtain ⟨resp, heq, herr⟩ := tool_error_recovered (fun _ => 0) "hi"
    ⟨[[]], 0, emptyFS⟩ "\x7b\"step\": \"TOOL\"\x7d" [] [("step", Json.str "TOOL")]
    (by rfl) (by rfl)
    (Or.inl (by intro s hs; cases hs; decide))
  rw [heq]
  rfl

theorem readRef_appendMsg_ne {r q : Nat} (hne : q ≠ r) (h : Heap) (m : Msg) :
    readRef (appendMsg h r m) q = readRef h q := by
  unfold readRef appendMsg
  rw [List.getD_eq_getElem?_getD, List.getD_eq_getElem?_getD,
    List.getElem?_set_ne (Ne.symm hne)]

/-- One loop iteration only mutates the run's own history cell: the run's
reference is preserved and every other heap cell is untouched. -/
theorem loopStep_frame (sys : String → Int) (uq : String) (st : AState)
    (r : Except String String) (q : Nat) (hq : q ≠ st.ref) :
    (∀ st', loopStep sys uq st r = Sum.inl st' →
        st'.ref = st.ref ∧ readRef st'.heap q = readRef st.heap q) ∧
    (∀ out, loopStep sys uq st r = Sum.inr out →
        readRef out.heapOf q = readRef st.heap q) := by
  constructor
  · intro st' hx
    unfold loopStep at hx
    cases r with
    | error e => dsimp only at hx; cases hx
    | ok raw =>
        dsimp only at hx
        cases hp : jsonParse raw with
        | error e => rw [hp] at hx; cases hx
        | ok v =>
            rw [hp] at hx
            cases v <;> dsimp only at hx
            case obj fields =>
              repeat' split at hx
              all_goals cases hx
              all_goals exact ⟨rfl, by simp [readRef_appendMsg_ne hq]⟩
            all_goals cases hx
  · intro out hx
    unfold loopStep at hx
    cases r with
    | error e =>
        dsimp only at hx
        cases hx
        rfl
    | ok raw =>
        dsimp only at hx
        cases hp : jsonParse raw with
        | error e =>
            rw [hp] at hx
            cases hx
            exact readRef_appendMsg_ne hq _ _
        | ok v =>
            rw [hp] at hx
            cases v <;> dsimp only at hx
            case obj fields =>
              repeat' split at hx
              all_goals cases hx
              all_goals exact readRef_appendMsg_ne hq _ _
            all_goals (cases hx; exact readRef_appendMsg_ne hq _ _)

/-- The loop never touches heap cells other than its own history list. -/
theorem runLoop_frame (sys : String → Int) (uq : String) (q : Nat) :
    ∀ (responses : List (Except String String)) (st : AState), q ≠ st.ref →
    readRef (runLoop sys uq st responses).heapOf q = readRef st.heap q := by
  intro responses
  induction responses with
  | nil => intro st _; rfl
  | cons r rest ih =>
      intro st hq
      unfold runLoop
      cases hls : loopStep sys uq st r with
      | inr out =>
          dsimp only
          exact (loopStep_frame sys uq st r q hq).2 out hls
      | inl st1 =>
          dsimp only
          obtain ⟨href, hheap⟩ := (loopStep_frame sys uq st r q hq).1 st1 hls
          rw [ih st1 (by rw [href]; exact hq), hheap]

/--
C10: `run_assistant` never mutates the caller's history list.  The
caller's list is first copied (`list(message_history)`), every append of
the run goes to the fresh copy, so after the run returns the caller's
cell holds exactly the elements it held before the call.
-/
theorem run_assistant_preserves_history (sys : String → Int) (uq : String)
    (heap0 : Heap) (r : Nat) (fs0 : FS)
    (responses : List (Except String String)) (hr : r < heap0.length) :
    readRef (run_assistant sys uq heap0 (some r) fs0 responses).heapOf r =
      readRef heap0 r := by
  have hne : r ≠ heap0.length := Nat.ne_of_lt hr
  unfold run_assistant
  rw [runLoop_frame sys uq r responses _ (by simp [initState, alloc]; exact hne)]
  show readRef (appendMsg (heap0 ++ [readRef heap0 r]) heap0.length _) r = _
  rw [readRef_appendMsg_ne hne]
  unfold readRef
  exact List.getD_append _ _ _ _ hr

/-- Witness for C10 on a concrete caller-owned history. -/
theorem run_assistant_preserves_history_witness :
    readRef (run_assistant (fun _ => 0) "hi" [[⟨"user", "old"⟩]] (some 0) emptyFS
        []).heapOf 0 =
      readRef [[⟨"user", "old"⟩]] 0 :=
  run_assistant_preserves_history (fun _ => 0) "hi" [[⟨"user", "old"⟩]] 0 emptyFS
    [] (by decide)

/-- Witness for C9 at concrete inputs on both conjuncts. -/
theorem create_file_location_inference_witness :
    create_file emptyFS "todo.py" "print(1)" "Create a todo app" =
      ("File \x27ai_projects/todo_app/todo.py\x27 created successfully.",
        ⟨[["ai_projects"], ["ai_projects", "todo_app"]],
          [(["ai_projects", "todo_app", "todo.py"], "print(1)")]⟩) ∧
    detect_project_name_and_location "notes/x.py" "hi" "" = (none, none) := by
  constructor
  · exact create_file_location_inference.1 "print(1)"
  · exact (create_file_location_inference.2 emptyFS "notes/x.py" "hi" ""
      (Or.inl (by decide))).1

end VCA
